import Mathlib

/-!
Verification development for the `soql` query-generation library.

The definitions below are a shallow embedding of the library's core
(`soql/nodes.py`, `soql/path_builder.py`, `soql/model.py`, `soql/select.py`):

* `SNode` embeds the composite text-node model of `nodes.py` (`Node` holds a
  list of children and a separator; leaves are plain strings).
* `Value` embeds the Python values fed to `_stringify` (strings, `None`,
  booleans, `datetime`, integers, other objects via their `str()` form, and
  nested nodes).
* `ModelDef` / `Attr` embed declarative models and their declared attributes;
  relationship targets are stored by model name and resolved through a
  registry, exactly as the library's `model_registry` does for late-bound
  (string) references; a direct class reference in Python behaves the same
  as a by-name lookup against a consistent registry.
* `PB` embeds `PathBuilder`; fallible lookups return `Except SoqlError`,
  with one constructor per Python exception that can be raised
  (`KeyError`, `AttributeError`, `ModelNotRegistered`,
  `SelectClauseIsntValidSubquery`).
* `JoinChildren` embeds `RelationshipNode`: a node's `child_relationships`
  `OrderedDict` is represented as an ordered sibling chain
  (`cons key childChildren restSiblings`); the node's `relationship` field is
  the key under which it is stored, and the root is the chain itself.
* `Builder` embeds `SelectClauseBuilder`; operations that mutate `self` and
  then return `copy(self)` are embedded as functions returning the pair
  (receiver state after the call, builder returned to the caller).
-/

namespace PlangridSoql

/-- Reserved word spellings from `nodes.py` (`WORDS`). -/
def WORDS_SELECT : String := "SELECT"

def WORDS_FROM : String := "FROM"

def WORDS_WHERE : String := "WHERE"

def WORDS_ORDER_BY : String := "ORDER BY"

def WORDS_LIMIT : String := "LIMIT"

def WORDS_OFFSET : String := "OFFSET"

def WORDS_NULL : String := "NULL"

def WORDS_TRUE : String := "TRUE"

def WORDS_FALSE : String := "FALSE"

/-- Operator token spellings from `nodes.py` (`OPS`). -/
def OPS_AND : String := "AND"

def OPS_EQ : String := "="

def OPS_LT : String := "<"

def OPS_LTE : String := "<="

def OPS_GT : String := ">"

def OPS_GTE : String := ">="

def OPS_NE : String := "!="

def OPS_IN : String := "IN"

def OPS_IS : String := "IS"

def OPS_IS_NOT : String := "IS NOT"

def OPS_LIKE : String := "LIKE"

/-- The single-quote character, used by `_stringify` to wrap strings. -/
def squote : String := String.singleton (Char.ofNat 39)

/-- Python `str.join` over a list of already-rendered strings. -/
def sjoin (sep : String) : List String → String
  | [] => ""
  | [a] => a
  | a :: b :: rest => a ++ sep ++ sjoin sep (b :: rest)

/-- The composite text-node model of `nodes.py`. `Node(child_nodes, sep)`
holds an ordered list of children (literal strings or nested nodes) and a
separator; subclasses only differ in how they build this structure. -/
inductive SNode where
  | str : String → SNode
  | node : List SNode → String → SNode

/-- Renders a node: join all children's renders with the separator
(`Node._as_string`). -/
def render : SNode → String
  | .str s => s
  | .node cs sep => sjoin sep (renderList cs)
where
  /-- Renders each child in order. -/
  renderList : List SNode → List String
    | [] => []
    | c :: cs => render c :: renderList cs

theorem renderList_eq_map (cs : List SNode) :
    render.renderList cs = cs.map render := by
  induction cs with
  | nil => rfl
  | cons c cs ih => simp [render.renderList, ih]

/-- A naive timezone-aware/naive datetime: calendar fields plus an optional
UTC offset in minutes (`tzinfo`); `none` models a naive datetime. -/
structure PyDateTime where
  year : Nat
  month : Nat
  day : Nat
  hour : Nat
  minute : Nat
  second : Nat
  microsecond : Nat
  tz : Option Int

/-- Left-pads the decimal form of `n` with zeros to `w` digits. -/
def padNat (w : Nat) (n : Nat) : String :=
  let s := toString n
  String.mk (List.replicate (w - s.length) '0') ++ s

/-- Renders a UTC offset in minutes the way `datetime.isoformat` does
(`+HH:MM` / `-HH:MM`; `tzutc()` renders as `+00:00`). -/
def renderTzOffset (off : Int) : String :=
  (if off < 0 then "-" else "+") ++
    padNat 2 (off.natAbs / 60) ++ ":" ++ padNat 2 (off.natAbs % 60)

/-- `datetime.isoformat()`: ISO-8601 timestamp text; microseconds are
printed only when non-zero, and the offset only for aware datetimes. -/
def isoformat (dt : PyDateTime) : String :=
  padNat 4 dt.year ++ "-" ++ padNat 2 dt.month ++ "-" ++ padNat 2 dt.day ++
    "T" ++ padNat 2 dt.hour ++ ":" ++ padNat 2 dt.minute ++ ":" ++
    padNat 2 dt.second ++
    (if dt.microsecond = 0 then "" else "." ++ padNat 6 dt.microsecond) ++
    (match dt.tz with
      | none => ""
      | some off => renderTzOffset off)

/-- `value.replace(tzinfo=tzutc())` applied only when the value is naive:
the datetime `_stringify` actually renders. -/
def ensureTzUtc (dt : PyDateTime) : PyDateTime :=
  match dt.tz with
  | none => { dt with tz := some 0 }
  | some _ => dt

/-- The Python values that reach `_stringify`: checked in source order as
string / `None` / `True` / `False` / `datetime` / anything else (via
`str(value)`); `vint` is a representative "other" value with its default
textual form, `vother` carries an arbitrary object's `str()` form, and
`vnode` is a nested `Node` (whose `str()` is its render). -/
inductive Value where
  | vstr : String → Value
  | vnone : Value
  | vtrue : Value
  | vfalse : Value
  | vdatetime : PyDateTime → Value
  | vint : Int → Value
  | vother : String → Value
  | vnode : SNode → Value

/-- `_stringify` from `nodes.py`: converts a native value to its SOQL text. -/
def stringify : Value → String
  | .vstr s => squote ++ s ++ squote
  | .vnone => WORDS_NULL
  | .vtrue => WORDS_TRUE
  | .vfalse => WORDS_FALSE
  | .vdatetime dt =>
      match dt.tz with
      | none => isoformat { dt with tz := some 0 }
      | some _ => isoformat dt
  | .vint n => toString n
  | .vother s => s
  | .vnode nd => render nd

/-- `Grouped`: wraps a node in parentheses. -/
def Grouped (n : SNode) : SNode :=
  .node [.str "(", n, .str ")"] ""

/-- `Expression(lhs, op, rhs)`: both operands pass through `_stringify` at
construction time, the operator token sits between them, space-separated. -/
def Expression (lhs : Value) (op : String) (rhs : Value) : SNode :=
  .node [.str (stringify lhs), .str op, .str (stringify rhs)] " "

/-- `CommaSeparated`. -/
def CommaSeparated (items : List SNode) : SNode :=
  .node items ", "

/-- `AndSeparated`: joined with the AND keyword. -/
def AndSeparated (items : List SNode) : SNode :=
  .node items (" " ++ OPS_AND ++ " ")

/-- `Array`: a parenthesized comma list. -/
def ArrayNode (items : List SNode) : SNode :=
  .node [Grouped (CommaSeparated items)] ""

/-- `Function(function_name, args)`. -/
def FunctionNode (functionName : String) (args : List SNode) : SNode :=
  .node [.str functionName, ArrayNode args] ""

/-- `Count()`: the COUNT function with no arguments. -/
def CountNode : SNode :=
  FunctionNode "COUNT" []

/-- `ColumnPath(*elements)`: children joined with dots. -/
def ColumnPath (elements : List SNode) : SNode :=
  .node elements "."

/-- The child-node list a `SelectClause` is built from: each optional
clause is emitted only when its backing state is non-empty / non-`None`
(Python truthiness on the lists, `is not None` on limit and offset). -/
def selectChildren (selectColumns : List SNode) (fromTable : SNode)
    (whereConditions : List SNode) (orderBys : List SNode)
    (limit : Option Int) (offset : Option Int) : List SNode :=
  [.str WORDS_SELECT, CommaSeparated selectColumns, .str WORDS_FROM, fromTable]
    ++ (if whereConditions.isEmpty then []
        else [.str WORDS_WHERE, AndSeparated whereConditions])
    ++ (if orderBys.isEmpty then []
        else [.str WORDS_ORDER_BY, CommaSeparated orderBys])
    ++ (match limit with
        | none => []
        | some n => [.str WORDS_LIMIT, .node [.str (toString n)] ""])
    ++ (match offset with
        | none => []
        | some n => [.str WORDS_OFFSET, .node [.str (toString n)] ""])

/-- `SelectClause`: the top-level statement node, children space-joined. -/
def mkSelectClause (selectColumns : List SNode) (fromTable : SNode)
    (whereConditions : List SNode) (orderBys : List SNode)
    (limit : Option Int) (offset : Option Int) : SNode :=
  .node (selectChildren selectColumns fromTable whereConditions orderBys
    limit offset) " "

/-- `SubqueryClause`: a parenthesized `SelectClause` with no ordering or
pagination parameters at all. -/
def mkSubqueryClause (selectColumns : List SNode) (fromTable : SNode)
    (whereConditions : List SNode) : SNode :=
  .node [Grouped (mkSelectClause selectColumns fromTable whereConditions
    [] none none)] ""

/-- `OrderByClause(column, direction, nulls_position)`: the column followed
by the optional direction and nulls-position tokens, space-joined. -/
def OrderByClause (column : SNode) (direction : Option String)
    (nullsPosition : Option String) : SNode :=
  .node ([column]
    ++ (match direction with | none => [] | some d => [.str d])
    ++ (match nullsPosition with | none => [] | some p => [.str p])) " "

/-- `_op_factory(op)`: builds the comparison operators of `Operatable`. -/
def opFactory (op : String) (lhs rhs : Value) : SNode :=
  Expression lhs op rhs

/-- `Operatable.__eq__`. -/
def eqOp : Value → Value → SNode := opFactory OPS_EQ

/-- `Operatable.__ne__`. -/
def neOp : Value → Value → SNode := opFactory OPS_NE

/-- `Operatable.__lt__`. -/
def ltOp : Value → Value → SNode := opFactory OPS_LT

/-- `Operatable.__le__`. -/
def leOp : Value → Value → SNode := opFactory OPS_LTE

/-- `Operatable.__gt__`. -/
def gtOp : Value → Value → SNode := opFactory OPS_GT

/-- `Operatable.__ge__`. -/
def geOp : Value → Value → SNode := opFactory OPS_GTE

/-- The six operator tokens used by the comparison magic methods. -/
def comparisonOpTokens : List String :=
  [OPS_EQ, OPS_NE, OPS_LT, OPS_LTE, OPS_GT, OPS_GTE]

theorem render_str (s : String) : render (.str s) = s := rfl

theorem render_node (cs : List SNode) (sep : String) :
    render (.node cs sep) = sjoin sep (cs.map render) := by
  rw [render, renderList_eq_map]

/-- Rendering a three-child expression node. -/
theorem render_Expression (lhs : Value) (op : String) (rhs : Value) :
    render (Expression lhs op rhs) =
      stringify lhs ++ " " ++ op ++ " " ++ stringify rhs := by
  simp only [Expression, render_node, List.map, render_str, sjoin,
    String.append_assoc]

/-- Rendering a dot-joined column path whose elements are plain strings. -/
theorem render_ColumnPath_strs (elems : List String) :
    render (ColumnPath (elems.map SNode.str)) = sjoin "." elems := by
  rw [ColumnPath, render_node, List.map_map]
  congr 1
  induction elems with
  | nil => rfl
  | cons a es ih => cases es <;> simp_all [List.map, Function.comp, render_str]

/-- The exceptions the embedded core can raise: `KeyError` (dict lookup
miss in `extend_path` / `_iterate_path`), `AttributeError`
(`_ModelMeta.__getattr__` on an undeclared name, or attribute access such
as `.related_model` / `.many` on an object lacking it),
`ModelNotRegistered` (`model_registry.get_by_model_name` miss), and
`SelectClauseIsntValidSubquery` (`SelectClauseBuilder.subquery`). -/
inductive SoqlError where
  | keyError : String → SoqlError
  | attributeError : String → SoqlError
  | modelNotRegistered : String → SoqlError
  | selectClauseIsntValidSubquery : SoqlError
deriving DecidableEq, Repr

/-- A declared model attribute (`soql/attributes.py`): a `Column` or a
`Relationship` (with its target model's class name and `many` flag); both
carry a `salesforce_name`. Relationship targets are stored by class name
and resolved through the registry, which is how the library handles
late-bound (string) references; a direct class reference behaves the same
against a consistent registry. The nullability flag and value kind of a
column play no role in query-text generation and are omitted. -/
inductive Attr where
  | column : String → Attr
  | relationship : String → String → Bool → Attr
deriving DecidableEq

/-- The `salesforce_name` of an attribute. -/
def Attr.sfName : Attr → String
  | .column sf => sf
  | .relationship sf _ _ => sf

/-- A declared model: its name as known by Salesforce (`__soql_name__`),
and its `declared_attrs` ordered mapping as an ordered association list. -/
structure ModelDef where
  soqlName : String
  declaredAttrs : List (String × Attr)
deriving DecidableEq

/-- The model registry keyed by model class name. -/
def Registry := List (String × ModelDef)

/-- Ordered-dict lookup by key in `declared_attrs`. -/
def lookupAttr : List (String × Attr) → String → Option Attr
  | [], _ => none
  | (k, a) :: rest, key => if k = key then some a else lookupAttr rest key

/-- `model_registry.get_by_model_name`: raises `ModelNotRegistered` on a
miss. -/
def lookupModel : Registry → String → Except SoqlError ModelDef
  | [], n => .error (.modelNotRegistered n)
  | (k, m) :: rest, n => if k = n then .ok m else lookupModel rest n

/-- `Relationship.related_model`: resolves the stored reference through the
registry; accessing it on a `Column` is an `AttributeError`. -/
def relatedModelOf (reg : Registry) : Attr → Except SoqlError ModelDef
  | .column _ => .error (.attributeError "related_model")
  | .relationship _ rm _ => lookupModel reg rm

/-- `PathBuilder._iterate_path(path_index=-1)`: walks the full path from
the base model, yielding at each step the related model reached and the
relationship attribute traversed. A missing key is a `KeyError`; a column
in relationship position has no `related_model` (`AttributeError`). -/
def iteratePath (reg : Registry) (m : ModelDef) :
    List String → Except SoqlError (List (ModelDef × Attr))
  | [] => .ok []
  | r :: rest =>
    match lookupAttr m.declaredAttrs r with
    | none => .error (.keyError r)
    | some a =>
      match relatedModelOf reg a with
      | .error e => .error e
      | .ok m2 =>
        match iteratePath reg m2 rest with
        | .error e => .error e
        | .ok l => .ok ((m2, a) :: l)

/-- `PathBuilder.get_model_in_path(path_index=-1)`: the model reached at the
end of the path (the base model for an empty path). -/
def getModelLast (reg : Registry) (m : ModelDef) (path : List String) :
    Except SoqlError ModelDef :=
  match iteratePath reg m path with
  | .error e => .error e
  | .ok l =>
    .ok (match l.getLast? with
      | none => m
      | some e => e.1)

/-- `PathBuilder.get_relationship_attr_in_path(path_index=-1)`: the last
relationship attribute in the path; a `None` result is then dereferenced
by the caller (`attr.many`), which is an `AttributeError`. -/
def getRelAttrLast (reg : Registry) (m : ModelDef) (path : List String) :
    Except SoqlError Attr :=
  match iteratePath reg m path with
  | .error e => .error e
  | .ok l =>
    match l.getLast? with
    | none => .error (.attributeError "many")
    | some e => .ok e.2

/-- `PathBuilder._build_soql_column_path`: the base model's schema name
followed by the `salesforce_name` of each traversed relationship. -/
def buildSoqlColumnPath (reg : Registry) (m : ModelDef)
    (path : List String) : Except SoqlError (List String) :=
  match iteratePath reg m path with
  | .error e => .error e
  | .ok l => .ok (m.soqlName :: l.map (fun e => e.2.sfName))

/-- `PathBuilder` state: the base model and the chain of relationship
attribute names. -/
structure PB where
  model : ModelDef
  path : List String

/-- `PathBuilder.get_column_node`: the dotted `ColumnPath` for this path. -/
def getColumnNode (reg : Registry) (pb : PB) : Except SoqlError SNode :=
  match buildSoqlColumnPath reg pb.model pb.path with
  | .error e => .error e
  | .ok ps => .ok (ColumnPath (ps.map SNode.str))

/-- `PathBuilder.extend_path(item)`: looks the item up in the terminal
model's `declared_attrs` (`KeyError` on a miss); a relationship extends the
path with a new `PathBuilder`, a column terminates it with a `ColumnPath`
node over the built path plus the column's `salesforce_name`. -/
def extendPath (reg : Registry) (pb : PB) (item : String) :
    Except SoqlError (PB ⊕ SNode) :=
  match getModelLast reg pb.model pb.path with
  | .error e => .error e
  | .ok lastM =>
    match lookupAttr lastM.declaredAttrs item with
    | none => .error (.keyError item)
    | some (.relationship _ _ _) => .ok (.inl ⟨pb.model, pb.path ++ [item]⟩)
    | some (.column sf) =>
      match buildSoqlColumnPath reg pb.model pb.path with
      | .error e => .error e
      | .ok ps => .ok (.inr (ColumnPath ((ps ++ [sf]).map SNode.str)))

/-- `_ModelMeta.__getattr__`: attribute access on a model class raises
`AttributeError` for an undeclared name, otherwise builds a fresh
`PathBuilder` and extends it by the name. -/
def metaGetattr (reg : Registry) (m : ModelDef) (item : String) :
    Except SoqlError (PB ⊕ SNode) :=
  match lookupAttr m.declaredAttrs item with
  | none => .error (.attributeError item)
  | some _ => extendPath reg ⟨m, []⟩ item

/-- `Model.iter_columns`: the keys of the column attributes, in
`declared_attrs` order. -/
def iterColumns (attrs : List (String × Attr)) : List String :=
  attrs.filterMap (fun ka =>
    match ka.2 with
    | .column _ => some ka.1
    | .relationship _ _ _ => none)

/-- The comprehension body of `get_last_model_column_nodes`: extend the
path by each column key and wrap the result in a one-element `ColumnPath`.
`iter_columns` only yields column keys, for which `extend_path` returns a
node; the relationship arm is unreachable there and maps to the error the
subsequent node rendering would surface. -/
def colNodesLoop (reg : Registry) (pb : PB) :
    List String → Except SoqlError (List SNode)
  | [] => .ok []
  | k :: ks =>
    match extendPath reg pb k with
    | .error e => .error e
    | .ok (.inl _) => .error (.attributeError k)
    | .ok (.inr n) =>
      match colNodesLoop reg pb ks with
      | .error e => .error e
      | .ok l => .ok (ColumnPath [n] :: l)

/-- `PathBuilder.get_last_model_column_nodes`: one column node per column
attribute of the model at the end of the path. -/
def getLastModelColumnNodes (reg : Registry) (pb : PB) :
    Except SoqlError (List SNode) :=
  match getModelLast reg pb.model pb.path with
  | .error e => .error e
  | .ok lastM => colNodesLoop reg pb (iterColumns lastM.declaredAttrs)

/-- Code-point comparison of character lists: the order Python's `sorted`
uses on strings. -/
def charListLt : List Char → List Char → Bool
  | [], [] => false
  | [], _ :: _ => true
  | _ :: _, [] => false
  | c :: cs, d :: ds =>
    if c.toNat < d.toNat then true
    else if d.toNat < c.toNat then false
    else charListLt cs ds

/-- String comparison by code points. -/
def strLt (a b : String) : Bool :=
  charListLt a.toList b.toList

/-- One step of the sort `_ModelMeta.__new__` performs on attribute keys. -/
def insertAttrSorted (x : String × Attr) :
    List (String × Attr) → List (String × Attr)
  | [] => [x]
  | y :: ys => if strLt x.1 y.1 then x :: y :: ys else y :: insertAttrSorted x ys

/-- `sorted(cls_attrs.keys())` applied to an attribute association list:
insertion sort by key, ascending by code point. -/
def sortAttrs : List (String × Attr) → List (String × Attr)
  | [] => []
  | x :: xs => insertAttrSorted x (sortAttrs xs)

/-- `_ModelMeta.__new__` for a class with no model base classes: the
declared attributes are collected in sorted key order into
`declared_attrs`. -/
def mkModel (soqlName : String) (clsAttrs : List (String × Attr)) : ModelDef :=
  ⟨soqlName, sortAttrs clsAttrs⟩

/-- `RelationshipNode`'s children: the `child_relationships` `OrderedDict`
as an ordered sibling chain. `cons rel child rest` is the entry for key
`rel` (whose node's own children are `child`) followed by the later-seen
siblings `rest`; a node's `relationship` field is exactly the key it is
stored under, and the root node is the chain of its children. -/
inductive JoinChildren where
  | nil : JoinChildren
  | cons : String → JoinChildren → JoinChildren → JoinChildren

/-- The keys of a sibling chain, in insertion order. -/
def keysJC : JoinChildren → List String
  | .nil => []
  | .cons r _ rest => r :: keysJC rest

/-- Membership test on a key list (the `relationship not in
node.child_relationships` check). -/
def memS (x : String) : List String → Bool
  | [] => false
  | y :: ys => if y = x then true else memS x ys

/-- `RelationshipNode.add_path`: walks the path, creating (at the end of
the sibling chain, as `OrderedDict` insertion does) any child node that
does not exist yet, and descending into the existing one when it does. -/
def addPath : JoinChildren → List String → JoinChildren
  | g, [] => g
  | .nil, r :: rest => .cons r (addPath .nil rest) .nil
  | .cons r2 sub sibs, r :: rest =>
    if r2 = r then .cons r2 (addPath sub rest) sibs
    else .cons r2 sub (addPath sibs (r :: rest))
termination_by g p => (p.length, sizeOf g)

/-- Whether every relationship of `path` is present as a nested chain. -/
def hasPath : JoinChildren → List String → Bool
  | _, [] => true
  | .nil, _ :: _ => false
  | .cons r2 sub sibs, r :: rest =>
    if r2 = r then hasPath sub rest else hasPath sibs (r :: rest)
termination_by g p => (p.length, sizeOf g)

/-- Well-formedness of a graph: at every level no key occurs twice (the
dict invariant of `child_relationships`). -/
def wfJC : JoinChildren → Bool
  | .nil => true
  | .cons r sub rest => !memS r (keysJC rest) && wfJC sub && wfJC rest

/-- The concatenation, in reverse order, of a list of node blocks: the
shape produced by repeatedly prepending blocks to an accumulator. -/
def flatRev : List (List SNode) → List SNode
  | [] => []
  | b :: bs => flatRev bs ++ b

/-- The loop of `SelectClauseBuilder._recursively_compile_joins` over one
node's children, carrying the list `joins` accumulated so far. For a
to-many child the recursive call on the child node (its grandchildren
compiled against a fresh path rooted at the related model, then that
model's own columns prepended, since a child node is never the root) is
wrapped as a correlated subquery and appended; for a to-one child the
recursive call (against the extended path) is prepended. -/
def compileChildren (reg : Registry) (p : PB) :
    JoinChildren → List SNode → Except SoqlError (List SNode)
  | .nil, acc => .ok acc
  | .cons r sub rest, acc =>
    match extendPath reg p r with
    | .error e => .error e
    | .ok (.inr _) => .error (.attributeError "get_relationship_attr_in_path")
    | .ok (.inl childPath) =>
      match getRelAttrLast reg childPath.model childPath.path with
      | .error e => .error e
      | .ok (.column _) => .error (.attributeError "many")
      | .ok (.relationship _ rm many) =>
        if many then
          match lookupModel reg rm with
          | .error e => .error e
          | .ok relM =>
            match compileChildren reg ⟨relM, []⟩ sub [] with
            | .error e => .error e
            | .ok js =>
              match getLastModelColumnNodes reg ⟨relM, []⟩ with
              | .error e => .error e
              | .ok cols =>
                match getColumnNode reg childPath with
                | .error e => .error e
                | .ok fromTable =>
                  compileChildren reg p rest
                    (acc ++ [mkSubqueryClause (cols ++ js) fromTable []])
        else
          match compileChildren reg childPath sub [] with
          | .error e => .error e
          | .ok js =>
            match getLastModelColumnNodes reg childPath with
            | .error e => .error e
            | .ok cols => compileChildren reg p rest ((cols ++ js) ++ acc)

/-- `_recursively_compile_joins` at a non-root node: compile the node's
children, then prepend the default column nodes of the model reached at
the current path. -/
def compileNode (reg : Registry) (p : PB) (g : JoinChildren) :
    Except SoqlError (List SNode) :=
  match compileChildren reg p g [] with
  | .error e => .error e
  | .ok js =>
    match getLastModelColumnNodes reg p with
    | .error e => .error e
    | .ok cols => .ok (cols ++ js)

/-- Specification-side restatement of the loop: the compiled block of each
to-one child (in child order) and the subquery node of each to-many child
(in child order), kept separate. Used to state how `compileChildren`
orders its output. -/
def splitCompile (reg : Registry) (p : PB) :
    JoinChildren → Except SoqlError (List (List SNode) × List SNode)
  | .nil => .ok ([], [])
  | .cons r sub rest =>
    match extendPath reg p r with
    | .error e => .error e
    | .ok (.inr _) => .error (.attributeError "get_relationship_attr_in_path")
    | .ok (.inl childPath) =>
      match getRelAttrLast reg childPath.model childPath.path with
      | .error e => .error e
      | .ok (.column _) => .error (.attributeError "many")
      | .ok (.relationship _ rm many) =>
        if many then
          match lookupModel reg rm with
          | .error e => .error e
          | .ok relM =>
            match compileChildren reg ⟨relM, []⟩ sub [] with
            | .error e => .error e
            | .ok js =>
              match getLastModelColumnNodes reg ⟨relM, []⟩ with
              | .error e => .error e
              | .ok cols =>
                match getColumnNode reg childPath with
                | .error e => .error e
                | .ok fromTable =>
                  match splitCompile reg p rest with
                  | .error e => .error e
                  | .ok pr =>
                    .ok (pr.1, mkSubqueryClause (cols ++ js) fromTable [] :: pr.2)
        else
          match compileChildren reg childPath sub [] with
          | .error e => .error e
          | .ok js =>
            match getLastModelColumnNodes reg childPath with
            | .error e => .error e
            | .ok cols =>
              match splitCompile reg p rest with
              | .error e => .error e
              | .ok pr => .ok ((cols ++ js) :: pr.1, pr.2)

/-- `SelectClauseBuilder` state: the selected column nodes, the queried
model, the joined-relationship graph, accumulated order-by clause nodes,
accumulated filter expression nodes, optional limit and offset, and the
count flag. -/
structure Builder where
  model : ModelDef
  columns : List SNode
  graph : JoinChildren
  orderBys : List SNode
  filters : List SNode
  limit : Option Int
  offset : Option Int
  count : Bool

/-- `SelectClauseBuilder.__init__` / `select(model)`: default columns are
the model's own column nodes; everything else is empty. -/
def newBuilder (reg : Registry) (m : ModelDef) : Except SoqlError Builder :=
  match getLastModelColumnNodes reg ⟨m, []⟩ with
  | .error e => .error e
  | .ok cols => .ok ⟨m, cols, .nil, [], [], none, none, false⟩

/-- `SelectClauseBuilder.where`: appends the expression to the receiver's
own `_filters` list and then returns `copy(self)`. The result pair is
(receiver state after the call, builder returned to the caller); the
returned copy has a fresh list with the same contents. -/
def whereOp (b : Builder) (expression : SNode) : Builder × Builder :=
  let mutated := { b with filters := b.filters ++ [expression] }
  (mutated, mutated)

/-- `SelectClauseBuilder.join`: merges the path into the receiver's own
relationship graph, then returns `copy(self)`. -/
def joinOp (b : Builder) (pathBuilder : PB) : Builder × Builder :=
  let mutated := { b with graph := addPath b.graph pathBuilder.path }
  (mutated, mutated)

/-- `SelectClauseBuilder.order_by`: appends an `OrderByClause` to the
receiver's own list, then returns `copy(self)`. -/
def orderByOp (b : Builder) (column : SNode) (direction : Option String)
    (nullsPosition : Option String) : Builder × Builder :=
  let mutated :=
    { b with orderBys := b.orderBys ++ [OrderByClause column direction nullsPosition] }
  (mutated, mutated)

/-- `SelectClauseBuilder.limit`: overwrites the receiver's limit, then
returns `copy(self)`. -/
def limitOp (b : Builder) (n : Int) : Builder × Builder :=
  let mutated := { b with limit := some n }
  (mutated, mutated)

/-- `SelectClauseBuilder.offset`: overwrites the receiver's offset, then
returns `copy(self)`. -/
def offsetOp (b : Builder) (n : Int) : Builder × Builder :=
  let mutated := { b with offset := some n }
  (mutated, mutated)

/-- `SelectClauseBuilder.count`: sets the receiver's count flag, then
returns `copy(self)`. -/
def countOp (b : Builder) : Builder × Builder :=
  let mutated := { b with count := true }
  (mutated, mutated)

/-- `SelectClauseBuilder.columns`: overrides the receiver's selected
columns, then returns `copy(self)`. -/
def columnsOp (b : Builder) (cols : List SNode) : Builder × Builder :=
  let mutated := { b with columns := cols }
  (mutated, mutated)

/-- `SelectClauseBuilder._compile_joins`: compile the graph from the root
(the root node prepends no columns of its own). -/
def compileJoins (reg : Registry) (b : Builder) : Except SoqlError (List SNode) :=
  compileChildren reg ⟨b.model, []⟩ b.graph []

/-- `SelectClauseBuilder._get_columns`: a single `COUNT()` in count mode,
otherwise the selected columns followed by the compiled join output. -/
def getColumns (reg : Registry) (b : Builder) : Except SoqlError (List SNode) :=
  if b.count then .ok [CountNode]
  else
    match compileJoins reg b with
    | .error e => .error e
    | .ok joins => .ok (b.columns ++ joins)

/-- `SelectClauseBuilder._get_select_clause`. -/
def getSelectClause (reg : Registry) (b : Builder) : Except SoqlError SNode :=
  match getColumns reg b with
  | .error e => .error e
  | .ok cols =>
    .ok (mkSelectClause cols (.str b.model.soqlName) b.filters b.orderBys
      b.limit b.offset)

/-- `str(builder)`: render the full select clause. -/
def renderBuilder (reg : Registry) (b : Builder) : Except SoqlError String :=
  match getSelectClause reg b with
  | .error e => .error e
  | .ok n => .ok (render n)

/-- Python truthiness of the builder's `_limit` / `_offset` slot: `None`
and `0` are falsy, any other integer is truthy. -/
def truthyOpt : Option Int → Bool
  | none => false
  | some n => n != 0

/-- `SelectClauseBuilder.subquery`: raises when
`self._order_bys or self._limit or self._offset` is truthy, otherwise
builds a `SubqueryClause` from the computed columns, the model's name and
the accumulated filters. -/
def subqueryOp (reg : Registry) (b : Builder) : Except SoqlError SNode :=
  if !b.orderBys.isEmpty || truthyOpt b.limit || truthyOpt b.offset then
    .error .selectClauseIsntValidSubquery
  else
    match getColumns reg b with
    | .error e => .error e
    | .ok cols => .ok (mkSubqueryClause cols (.str b.model.soqlName) b.filters)

/-- Whether `pat` is a prefix of `cs`, comparing code points. -/
def prefB : List Char → List Char → Bool
  | [], _ => true
  | _ :: _, [] => false
  | a :: as, b :: bs => a.toNat == b.toNat && prefB as bs

/-- Whether `pat` occurs inside `cs` as a contiguous run. -/
def infB (pat : List Char) : List Char → Bool
  | [] => pat.isEmpty
  | h :: t => prefB pat (h :: t) || infB pat t

/-- Substring test: `s` contains `pat`. -/
def strContains (s pat : String) : Bool :=
  infB pat.toList s.toList

/-- The model reached after walking an `iteratePath` result (the base
model when the path is empty). -/
def modelAfter (m : ModelDef) (l : List (ModelDef × Attr)) : ModelDef :=
  match l.getLast? with
  | none => m
  | some e => e.1

theorem getModelLast_of_iterate {reg : Registry} {m : ModelDef}
    {rs : List String} {l : List (ModelDef × Attr)}
    (h : iteratePath reg m rs = .ok l) :
    getModelLast reg m rs = .ok (modelAfter m l) := by
  rw [getModelLast, h, modelAfter]

/-! Concrete fixture schema used by witnesses and counterexamples: a
`Home` with a to-one `child`, a `Child` with two to-one parents and a
to-many `pets`, mirroring the shapes in the library's own test suite. -/

def MPet : ModelDef := ⟨"Pet", [("id", .column "Id")]⟩

def MParent : ModelDef := ⟨"Parent", [("age", .column "Age"), ("id", .column "Id")]⟩

def MChild : ModelDef :=
  ⟨"Child",
    [("dad", .relationship "Dad" "Parent" false),
     ("id", .column "Id"),
     ("mom", .relationship "Mom" "Parent" false),
     ("pets", .relationship "Pets" "Pet" true)]⟩

def MHome : ModelDef := ⟨"Home", [("child", .relationship "Child" "Child" false)]⟩

def regMain : Registry :=
  [("Pet", MPet), ("Parent", MParent), ("Child", MChild), ("Home", MHome)]

/-- C8: `_stringify` wraps strings in single quotes, renders `None` as
NULL, booleans as the uppercase TRUE/FALSE keywords, datetimes in
ISO-8601 timestamp syntax with a naive datetime first given the UTC
offset (so the rendered offset is never absent), and any other value via
its default textual form. -/
theorem c8_stringify_rules :
    (∀ s, stringify (.vstr s) = squote ++ s ++ squote)
    ∧ stringify .vnone = "NULL"
    ∧ stringify .vtrue = "TRUE"
    ∧ stringify .vfalse = "FALSE"
    ∧ (∀ dt, stringify (.vdatetime dt) = isoformat (ensureTzUtc dt)
        ∧ (ensureTzUtc dt).tz = some (dt.tz.getD 0))
    ∧ (∀ n : Int, stringify (.vint n) = toString n)
    ∧ (∀ s, stringify (.vother s) = s)
    ∧ (∀ nd, stringify (.vnode nd) = render nd) := by
  refine ⟨fun s => rfl, rfl, rfl, rfl, fun dt => ?_, fun n => rfl,
    fun s => rfl, fun nd => rfl⟩
  rcases dt with ⟨y, mo, d, h, mi, s, us, tz⟩
  cases tz <;> simp [stringify, ensureTzUtc, Option.getD]

/-- C10: comparison operators stringify both operands, so `p == None`
renders with the `=` token and the NULL keyword (never IS / IS NOT), and
`p == True` renders with `=` and TRUE; the six comparison magic methods
only ever use the tokens `=`, `!=`, `<`, `<=`, `>`, `>=`. -/
theorem c10_comparison_stringifies_operands :
    (∀ elems, render (eqOp (.vnode (ColumnPath elems)) .vnone)
        = render (ColumnPath elems) ++ " = NULL")
    ∧ (∀ elems, render (eqOp (.vnode (ColumnPath elems)) .vtrue)
        = render (ColumnPath elems) ++ " = TRUE")
    ∧ (∀ t, t ∈ comparisonOpTokens → t ≠ OPS_IS ∧ t ≠ OPS_IS_NOT)
    ∧ (∀ lhs rhs, render (eqOp lhs rhs)
        = stringify lhs ++ " " ++ OPS_EQ ++ " " ++ stringify rhs) := by
  have hexp : ∀ lhs rhs, render (eqOp lhs rhs)
      = stringify lhs ++ " " ++ OPS_EQ ++ " " ++ stringify rhs := by
    intro lhs rhs
    rw [eqOp, opFactory, render_Expression]
  refine ⟨fun elems => ?_, fun elems => ?_, ?_, hexp⟩
  · rw [hexp]
    simp only [stringify, String.append_assoc]
    congr 1
  · rw [hexp]
    simp only [stringify, String.append_assoc]
    congr 1
  · intro t ht
    fin_cases ht <;> exact ⟨by decide, by decide⟩

/-- C10 witness: the membership hypothesis discharged at the `=` token. -/
theorem c10_comparison_stringifies_operands_witness :
    OPS_EQ ≠ OPS_IS ∧ OPS_EQ ≠ OPS_IS_NOT :=
  c10_comparison_stringifies_operands.2.2.1 OPS_EQ (by simp [comparisonOpTokens])

/-- C9: extending a path by an identifier that the terminal model's
schema does not declare fails at the extension call with the
field-not-declared error: `PathBuilder.extend_path` raises `KeyError`,
and attribute access on the model class (`_ModelMeta.__getattr__`)
raises `AttributeError`; no path or node value is produced that could
defer the failure to render time. -/
theorem c9_unknown_identifier_errors :
    (∀ (reg : Registry) (pb : PB) (x : String) (lastM : ModelDef),
        getModelLast reg pb.model pb.path = .ok lastM →
        lookupAttr lastM.declaredAttrs x = none →
        extendPath reg pb x = .error (.keyError x))
    ∧ (∀ (reg : Registry) (m : ModelDef) (x : String),
        lookupAttr m.declaredAttrs x = none →
        metaGetattr reg m x = .error (.attributeError x)) := by
  constructor
  · intro reg pb x lastM h1 h2
    simp only [extendPath, h1, h2]
  · intro reg m x h
    simp only [metaGetattr, h]

/-- C9 witness: extending `Child` by an undeclared name fails with
`KeyError`, and class-attribute access with `AttributeError`. -/
theorem c9_unknown_identifier_errors_witness :
    extendPath regMain ⟨MChild, []⟩ "nope" = .error (.keyError "nope")
    ∧ metaGetattr regMain MChild "nope" = .error (.attributeError "nope") :=
  ⟨c9_unknown_identifier_errors.1 regMain ⟨MChild, []⟩ "nope" MChild rfl rfl,
   c9_unknown_identifier_errors.2 regMain MChild "nope" rfl⟩

/-- C5: for a path of relationship extensions that terminates in a column,
the rendered column reference is the dot-joined concatenation of the root
model's schema name, the traversed relationships' schema names in
traversal order, and the column's schema name; and each intermediate
valid extension step produces a new path builder with the identifier
appended. -/
theorem c5_column_path_render (reg : Registry) (m : ModelDef)
    (rs : List String) (l : List (ModelDef × Attr)) (c sf : String)
    (h1 : iteratePath reg m rs = .ok l)
    (h2 : lookupAttr (modelAfter m l).declaredAttrs c = some (.column sf)) :
    extendPath reg ⟨m, rs⟩ c
      = .ok (.inr (ColumnPath
          (((m.soqlName :: l.map fun e => e.2.sfName) ++ [sf]).map SNode.str)))
    ∧ render (ColumnPath
          (((m.soqlName :: l.map fun e => e.2.sfName) ++ [sf]).map SNode.str))
        = sjoin "." ((m.soqlName :: l.map fun e => e.2.sfName) ++ [sf])
    ∧ (∀ (pb : PB) (r sfr rm : String) (many : Bool) (lastM : ModelDef),
        getModelLast reg pb.model pb.path = .ok lastM →
        lookupAttr lastM.declaredAttrs r = some (.relationship sfr rm many) →
        extendPath reg pb r = .ok (.inl ⟨pb.model, pb.path ++ [r]⟩)) := by
  refine ⟨?_, render_ColumnPath_strs _, ?_⟩
  · simp only [extendPath, getModelLast_of_iterate h1, h2,
      buildSoqlColumnPath, h1]
  · intro pb r sfr rm many lastM hg hl
    simp only [extendPath, hg, hl]

/-- C5 witness: `Home.child.mom.age` renders as `Home.Child.Mom.Age`. -/
theorem c5_column_path_render_witness :
    iteratePath regMain MHome ["child", "mom"]
      = .ok [(MChild, .relationship "Child" "Child" false),
             (MParent, .relationship "Mom" "Parent" false)]
    ∧ extendPath regMain ⟨MHome, ["child", "mom"]⟩ "age"
      = .ok (.inr (ColumnPath
          [.str "Home", .str "Child", .str "Mom", .str "Age"]))
    ∧ render (ColumnPath [.str "Home", .str "Child", .str "Mom", .str "Age"])
      = "Home.Child.Mom.Age" :=
  ⟨rfl,
   (c5_column_path_render regMain MHome ["child", "mom"]
      [(MChild, .relationship "Child" "Child" false),
       (MParent, .relationship "Mom" "Parent" false)] "age" "Age" rfl rfl).1,
   (c5_column_path_render regMain MHome ["child", "mom"]
      [(MChild, .relationship "Child" "Child" false),
       (MParent, .relationship "Mom" "Parent" false)] "age" "Age" rfl rfl).2.1⟩

/-- In a duplicate-free association list (a Python dict), membership of a
pair determines the lookup result. -/
theorem lookupAttr_of_mem {attrs : List (String × Attr)} {k : String} {a : Attr}
    (hnd : (attrs.map Prod.fst).Nodup) (hmem : (k, a) ∈ attrs) :
    lookupAttr attrs k = some a := by
  induction attrs with
  | nil => cases hmem
  | cons ka rest ih =>
    obtain ⟨k0, a0⟩ := ka
    simp only [List.map_cons, List.nodup_cons] at hnd
    rcases List.mem_cons.mp hmem with heq | htail
    · cases heq
      simp [lookupAttr]
    · have hne : k0 ≠ k := by
        intro h
        subst h
        exact hnd.1 (List.mem_map.mpr ⟨(k0, a), htail, rfl⟩)
      simpa [lookupAttr, hne] using ih hnd.2 htail

/-- The column node `get_last_model_column_nodes` produces for one
declared attribute of model `m` at the empty path (`None` for a
relationship, which `iter_columns` skips). -/
def colNodeEntry (m : ModelDef) (ka : String × Attr) : Option SNode :=
  match ka.2 with
  | .column sf => some (ColumnPath [ColumnPath [SNode.str m.soqlName, SNode.str sf]])
  | .relationship _ _ _ => none

theorem colNodesLoop_cols {reg : Registry} {m : ModelDef} :
    ∀ (attrs2 : List (String × Attr)),
    (∀ ka ∈ attrs2, lookupAttr m.declaredAttrs ka.1 = some ka.2) →
    colNodesLoop reg ⟨m, []⟩ (iterColumns attrs2)
      = .ok (attrs2.filterMap (colNodeEntry m)) := by
  intro attrs2
  induction attrs2 with
  | nil => intro _; rfl
  | cons ka rest ih =>
    intro h
    obtain ⟨k, a⟩ := ka
    have hk := h (k, a) (List.mem_cons_self _ _)
    have hrest := fun ka hka => h ka (List.mem_cons_of_mem _ hka)
    cases a with
    | relationship sf rm many =>
      simpa [iterColumns, colNodeEntry] using ih hrest
    | column sf =>
      simp only [iterColumns, List.filterMap_cons] at *
      simp only [colNodesLoop, extendPath, getModelLast, iteratePath,
        List.getLast?_nil, hk, buildSoqlColumnPath, List.map_nil,
        List.nil_append, List.map_cons, ih hrest, colNodeEntry]
      rfl

/-- C7 (amended): the default column references for a model are exactly
one per declared column field, in `declared_attrs` order — and
`declared_attrs` is populated in sorted attribute-name order by the model
metaclass, not in source declaration order. -/
theorem c7_default_columns (reg : Registry) (m : ModelDef)
    (hnd : (m.declaredAttrs.map Prod.fst).Nodup) :
    getLastModelColumnNodes reg ⟨m, []⟩
      = .ok (m.declaredAttrs.filterMap (colNodeEntry m))
    ∧ ∀ (nm : String) (clsAttrs : List (String × Attr)),
        (mkModel nm clsAttrs).declaredAttrs = sortAttrs clsAttrs := by
  constructor
  · simp only [getLastModelColumnNodes, getModelLast, iteratePath]
    exact colNodesLoop_cols m.declaredAttrs
      (fun ka hka => lookupAttr_of_mem hnd hka)
  · intro nm clsAttrs
    rfl

/-- The fixture for C7: columns declared in source order `id`, `name`,
`age`. -/
def MDeclOrder : ModelDef :=
  mkModel "M" [("id", .column "Id"), ("name", .column "Name"), ("age", .column "Age")]

def regDeclOrder : Registry := [("M", MDeclOrder)]

/-- C7 counterexample: for fields declared in the order `id`, `name`,
`age`, the default column references come out as `Age`, `Id`, `Name`
(sorted by attribute name) — not in declaration order as the claim
states. -/
theorem c7_default_columns_counterexample :
    (getLastModelColumnNodes regDeclOrder ⟨MDeclOrder, []⟩).map
        (fun l => l.map render)
      = .ok ["M.Age", "M.Id", "M.Name"]
    ∧ ["M.Age", "M.Id", "M.Name"] ≠ ["M.Id", "M.Name", "M.Age"] :=
  ⟨rfl, by decide⟩

/-- C7 witness: the amended statement applied to the same fixture. -/
theorem c7_default_columns_witness :
    (MDeclOrder.declaredAttrs.map Prod.fst).Nodup
    ∧ getLastModelColumnNodes regDeclOrder ⟨MDeclOrder, []⟩
      = .ok (MDeclOrder.declaredAttrs.filterMap (colNodeEntry MDeclOrder)) :=
  ⟨by decide,
   (c7_default_columns regDeclOrder MDeclOrder (by decide)).1⟩

theorem memS_append (x : String) (a b : List String) :
    memS x (a ++ b) = (memS x a || memS x b) := by
  induction a with
  | nil => simp [memS]
  | cons y ys ih =>
    by_cases h : y = x <;> simp [memS, h, ih]

/-- Inserting a path adds at most its head key, at the end of the sibling
chain, and only when absent. -/
theorem keysJC_addPath (g : JoinChildren) (r : String) (rest : List String) :
    keysJC (addPath g (r :: rest))
      = if memS r (keysJC g) then keysJC g else keysJC g ++ [r] := by
  induction g with
  | nil => simp [addPath, keysJC, memS]
  | cons r2 sub sibs ihsub ihsibs =>
    by_cases h : r2 = r
    · subst h
      simp [addPath, keysJC, memS]
    · have h2 : (r2 = r) = False := by simp [h]
      simp only [addPath, if_neg h, keysJC, memS, h2, if_false, ihsibs]
      by_cases hm : memS r (keysJC sibs) <;> simp [hm]

theorem addPath_idem (g : JoinChildren) (p : List String) :
    addPath (addPath g p) p = addPath g p := by
  induction g, p using addPath.induct with
  | case1 g => simp [addPath]
  | case2 r rest ih =>
    simp [addPath, ih]
  | case3 sub sibs r rest ih =>
    simp [addPath, ih]
  | case4 r2 sub sibs r rest hne ih =>
    simp [addPath, hne, ih]

theorem hasPath_addPath (g : JoinChildren) (p : List String) :
    hasPath (addPath g p) p = true := by
  induction g, p using addPath.induct with
  | case1 g => simp [hasPath]
  | case2 r rest ih => simp [addPath, hasPath, ih]
  | case3 sub sibs r rest ih =>
    simp [addPath, hasPath, ih]
  | case4 r2 sub sibs r rest hne ih =>
    simp [addPath, hasPath, hne, ih]

theorem wfJC_addPath (g : JoinChildren) (p : List String)
    (hwf : wfJC g = true) : wfJC (addPath g p) = true := by
  induction g, p using addPath.induct with
  | case1 g => simpa [addPath] using hwf
  | case2 r rest ih =>
    simp [addPath, wfJC, keysJC, memS, ih]
  | case3 sub sibs r rest ih =>
    simp only [wfJC, Bool.and_eq_true] at hwf
    simp [addPath, wfJC, hwf.1.1, hwf.1.2, hwf.2, ih hwf.1.2]
  | case4 r2 sub sibs r rest hne ih =>
    simp only [wfJC, Bool.and_eq_true] at hwf
    simp only [addPath, if_neg hne, wfJC, keysJC_addPath, Bool.and_eq_true]
    refine ⟨⟨?_, hwf.1.2⟩, ih hwf.2⟩
    by_cases hm : memS r (keysJC sibs)
    · simp [hm, hwf.1.1]
    · have h1 : memS r2 (keysJC sibs) = false := by simpa using hwf.1.1
      have h2 : memS r2 [r] = false := by
        simp only [memS, if_neg (fun h : r = r2 => hne h.symm)]
      simp [hm, memS_append, h1, h2]

/-- C6: `add_path` is idempotent — re-inserting a path leaves the graph
(and hence anything compiled from it) unchanged; inserting a path makes
every node of it present (creating missing intermediates); and insertion
preserves the no-duplicate-children dict invariant. -/
theorem c6_addPath_idempotent (g : JoinChildren) (p : List String) :
    addPath (addPath g p) p = addPath g p
    ∧ hasPath (addPath g p) p = true
    ∧ (wfJC g = true → wfJC (addPath g p) = true) :=
  ⟨addPath_idem g p, hasPath_addPath g p, wfJC_addPath g p⟩

/-- C6 witness: inserting `child.mom` twice into the empty graph equals
inserting it once, the path is present, and the result is duplicate-free. -/
theorem c6_addPath_idempotent_witness :
    addPath (addPath JoinChildren.nil ["child", "mom"]) ["child", "mom"]
      = addPath JoinChildren.nil ["child", "mom"]
    ∧ hasPath (addPath JoinChildren.nil ["child", "mom"]) ["child", "mom"] = true
    ∧ wfJC (addPath JoinChildren.nil ["child", "mom"]) = true :=
  ⟨(c6_addPath_idempotent JoinChildren.nil ["child", "mom"]).1,
   (c6_addPath_idempotent JoinChildren.nil ["child", "mom"]).2.1,
   (c6_addPath_idempotent JoinChildren.nil ["child", "mom"]).2.2 rfl⟩

/-- Decomposition of the compile loop: whatever it returns is the
to-one blocks in reverse child order, then the incoming accumulator, then
the to-many subqueries in child order. -/
theorem compileChildren_decomp (reg : Registry) (p : PB) :
    ∀ (g : JoinChildren) (acc out : List SNode),
    compileChildren reg p g acc = .ok out →
    ∃ pr, splitCompile reg p g = .ok pr
      ∧ out = flatRev pr.1 ++ acc ++ pr.2
      ∧ (∀ s ∈ pr.2, ∃ c f, s = mkSubqueryClause c f [])
      ∧ (∀ b ∈ pr.1, ∃ (pb2 : PB) (g2 : JoinChildren),
          compileNode reg pb2 g2 = .ok b) := by
  intro g
  induction g with
  | nil =>
    intro acc out h
    simp only [compileChildren, Except.ok.injEq] at h
    subst h
    exact ⟨([], []), rfl, by simp [flatRev], by simp, by simp⟩
  | cons r sub rest ihsub ihrest =>
    intro acc out h
    simp only [compileChildren] at h
    rcases hext : extendPath reg p r with e | cv
    · simp only [hext] at h
      exact Except.noConfusion h
    · rcases cv with childPath | n2
      · simp only [hext] at h
        rcases hattr : getRelAttrLast reg childPath.model childPath.path with e | attr
        · simp only [hattr] at h
          exact Except.noConfusion h
        · rcases attr with sf | ⟨sfr, rm, many⟩
          · simp only [hattr] at h
            exact Except.noConfusion h
          · cases many with
            | false =>
              simp only [hattr, Bool.false_eq_true, if_false] at h
              rcases hsub : compileChildren reg childPath sub [] with e | js
              · simp only [hsub] at h
                exact Except.noConfusion h
              · simp only [hsub] at h
                rcases hcols : getLastModelColumnNodes reg childPath with e | cols
                · simp only [hcols] at h
                  exact Except.noConfusion h
                · simp only [hcols] at h
                  obtain ⟨pr, h1, h2, h3, h4⟩ := ihrest _ _ h
                  refine ⟨((cols ++ js) :: pr.1, pr.2), ?_, ?_, h3, ?_⟩
                  · simp only [splitCompile, hext, hattr, Bool.false_eq_true,
                      if_false, hsub, hcols, h1]
                  · subst h2
                    simp [flatRev, List.append_assoc]
                  · intro b hb
                    rcases List.mem_cons.mp hb with hb | hb
                    · subst hb
                      exact ⟨childPath, sub, by rw [compileNode, hsub, hcols]⟩
                    · exact h4 b hb
            | true =>
              simp only [hattr, if_true] at h
              rcases hlm : lookupModel reg rm with e | relM
              · simp only [hlm] at h
                exact Except.noConfusion h
              · simp only [hlm] at h
                rcases hsub : compileChildren reg ⟨relM, []⟩ sub [] with e | js
                · simp only [hsub] at h
                  exact Except.noConfusion h
                · simp only [hsub] at h
                  rcases hcols : getLastModelColumnNodes reg ⟨relM, []⟩ with e | cols
                  · simp only [hcols] at h
                    exact Except.noConfusion h
                  · simp only [hcols] at h
                    rcases hft : getColumnNode reg childPath with e | ft
                    · simp only [hft] at h
                      exact Except.noConfusion h
                    · simp only [hft] at h
                      obtain ⟨pr, h1, h2, h3, h4⟩ := ihrest _ _ h
                      refine ⟨(pr.1, mkSubqueryClause (cols ++ js) ft [] :: pr.2),
                        ?_, ?_, ?_, h4⟩
                      · simp only [splitCompile, hext, hattr, if_true, hlm,
                          hsub, hcols, hft, h1]
                      · subst h2
                        simp [flatRev, List.append_assoc]
                      · intro s hs
                        rcases List.mem_cons.mp hs with hs | hs
                        · exact ⟨cols ++ js, ft, hs⟩
                        · exact h3 s hs
      · simp only [hext] at h
        exact Except.noConfusion h

/-- C2: at any level of the compiled join output, every node produced for
a to-one child precedes every correlated subquery produced for a to-many
child, for every join graph (hence regardless of the insertion order of
the `join` calls that built it): the output is exactly the to-one blocks
followed by the to-many subquery nodes. -/
theorem c2_to_one_columns_precede_to_many (reg : Registry) (p : PB)
    (g : JoinChildren) (out : List SNode)
    (h : compileChildren reg p g [] = .ok out) :
    ∃ pr, splitCompile reg p g = .ok pr
      ∧ out = flatRev pr.1 ++ pr.2
      ∧ (∀ s ∈ pr.2, ∃ c f, s = mkSubqueryClause c f [])
      ∧ (∀ b ∈ pr.1, ∃ (pb2 : PB) (g2 : JoinChildren),
          compileNode reg pb2 g2 = .ok b) := by
  obtain ⟨pr, h1, h2, h3, h4⟩ := compileChildren_decomp reg p g [] out h
  exact ⟨pr, h1, by simpa using h2, h3, h4⟩

/-- The graph of a node with a to-one child `mom` inserted before a
to-many child `pets`. -/
def gBoth : JoinChildren := .cons "mom" .nil (.cons "pets" .nil .nil)

def outBoth : List SNode :=
  [ColumnPath [ColumnPath [.str "Child", .str "Mom", .str "Age"]],
   ColumnPath [ColumnPath [.str "Child", .str "Mom", .str "Id"]],
   mkSubqueryClause [ColumnPath [ColumnPath [.str "Pet", .str "Id"]]]
     (ColumnPath [.str "Child", .str "Pets"]) []]

/-- C2 witness: compiling `Child` with a to-one `mom` and a to-many
`pets` puts the joined `Mom` columns before the `Pets` subquery. -/
theorem c2_to_one_columns_precede_to_many_witness :
    compileChildren regMain ⟨MChild, []⟩ gBoth [] = .ok outBoth
    ∧ ∃ pr, splitCompile regMain ⟨MChild, []⟩ gBoth = .ok pr
      ∧ outBoth = flatRev pr.1 ++ pr.2
      ∧ (∀ s ∈ pr.2, ∃ c f, s = mkSubqueryClause c f [])
      ∧ (∀ b ∈ pr.1, ∃ (pb2 : PB) (g2 : JoinChildren),
          compileNode regMain pb2 g2 = .ok b) :=
  ⟨rfl, c2_to_one_columns_precede_to_many regMain ⟨MChild, []⟩ gBoth outBoth rfl⟩

/-- C3 (amended): the compiled output of a non-root relationship node is
the node's own default columns first, then the blocks of its nested
to-one relationships in reverse first-seen insertion order (each block
itself starting with that child's own columns), then its nested to-many
relationships as subqueries in first-seen insertion order. -/
theorem c3_node_output_order (reg : Registry) (p : PB) (g : JoinChildren)
    (out : List SNode) (h : compileNode reg p g = .ok out) :
    ∃ cols pr, getLastModelColumnNodes reg p = .ok cols
      ∧ splitCompile reg p g = .ok pr
      ∧ out = cols ++ flatRev pr.1 ++ pr.2
      ∧ (∀ s ∈ pr.2, ∃ c f, s = mkSubqueryClause c f []) := by
  rw [compileNode] at h
  rcases hc : compileChildren reg p g [] with e | js
  · simp only [hc] at h
    exact Except.noConfusion h
  · simp only [hc] at h
    rcases hcols : getLastModelColumnNodes reg p with e | cols
    · simp only [hcols] at h
      exact Except.noConfusion h
    · simp only [hcols, Except.ok.injEq] at h
      obtain ⟨pr, h1, h2, h3, _⟩ := compileChildren_decomp reg p g [] js hc
      refine ⟨cols, pr, rfl, h1, ?_, h3⟩
      subst h
      subst h2
      simp

/-- The children of the `Home.child` node: to-one `dad` inserted first,
to-one `mom` inserted second. -/
def gDadMom : JoinChildren := .cons "dad" .nil (.cons "mom" .nil .nil)

def outDadMom : List SNode :=
  [ColumnPath [ColumnPath [.str "Home", .str "Child", .str "Id"]],
   ColumnPath [ColumnPath [.str "Home", .str "Child", .str "Mom", .str "Age"]],
   ColumnPath [ColumnPath [.str "Home", .str "Child", .str "Mom", .str "Id"]],
   ColumnPath [ColumnPath [.str "Home", .str "Child", .str "Dad", .str "Age"]],
   ColumnPath [ColumnPath [.str "Home", .str "Child", .str "Dad", .str "Id"]]]

/-- C3 counterexample: with `dad` joined before `mom`, the compiled node
output carries the `Mom` columns before the `Dad` columns — the reverse
of first-seen insertion order, contradicting the claimed in-order
rendering of nested to-one relationships. -/
theorem c3_node_output_order_counterexample :
    (compileNode regMain ⟨MHome, ["child"]⟩ gDadMom).map (fun l => l.map render)
      = .ok ["Home.Child.Id",
             "Home.Child.Mom.Age", "Home.Child.Mom.Id",
             "Home.Child.Dad.Age", "Home.Child.Dad.Id"]
    ∧ ["Home.Child.Id",
       "Home.Child.Mom.Age", "Home.Child.Mom.Id",
       "Home.Child.Dad.Age", "Home.Child.Dad.Id"]
      ≠ ["Home.Child.Id",
         "Home.Child.Dad.Age", "Home.Child.Dad.Id",
         "Home.Child.Mom.Age", "Home.Child.Mom.Id"] :=
  ⟨rfl, by decide⟩

/-- C3 witness: the amended ordering applied to the `Home.child` node. -/
theorem c3_node_output_order_witness :
    compileNode regMain ⟨MHome, ["child"]⟩ gDadMom = .ok outDadMom
    ∧ ∃ cols pr,
      getLastModelColumnNodes regMain ⟨MHome, ["child"]⟩ = .ok cols
      ∧ splitCompile regMain ⟨MHome, ["child"]⟩ gDadMom = .ok pr
      ∧ outDadMom = cols ++ flatRev pr.1 ++ pr.2
      ∧ (∀ s ∈ pr.2, ∃ c f, s = mkSubqueryClause c f []) :=
  ⟨rfl, c3_node_output_order regMain ⟨MHome, ["child"]⟩ gDadMom outDadMom rfl⟩

/-! Fixtures for the builder claims: a one-column model `M`. -/

def MC : ModelDef := ⟨"M", [("id", Attr.column "Id")]⟩

def regM1 : Registry := [("M", MC)]

/-- The builder `select(M)` produces (its state right after `__init__`). -/
def builderM : Builder :=
  ⟨MC, [ColumnPath [ColumnPath [.str "M", .str "Id"]]], .nil, [], [], none,
    none, false⟩

def xExpr : SNode := eqOp (.vnode (ColumnPath [.str "M", .str "Id"])) (.vint 1)

def yExpr : SNode := eqOp (.vnode (ColumnPath [.str "M", .str "Id"])) (.vint 2)

/-- C1 (amended): `where` appends to the receiver's own filter list before
returning a copy, so the receiver is mutated: B1 = B0.where(X) carries
B0's filters plus X, and the receiver afterwards equals B1; deriving
B2 = B0.where(Y) from the mutated receiver yields a builder carrying X
and then Y — as does the receiver itself. Previously returned copies
(B1) are unaffected because each copy owns a fresh filter list. -/
theorem c1_where_mutates_receiver (b0 : Builder) (x y : SNode) :
    (whereOp b0 x).2 = { b0 with filters := b0.filters ++ [x] }
    ∧ (whereOp b0 x).1 = (whereOp b0 x).2
    ∧ (whereOp (whereOp b0 x).1 y).2
        = { b0 with filters := b0.filters ++ [x, y] }
    ∧ (whereOp (whereOp b0 x).1 y).1 = (whereOp (whereOp b0 x).1 y).2 := by
  refine ⟨rfl, rfl, ?_, rfl⟩
  simp [whereOp]

/-- C1 counterexample: starting from `select(M)` as B0, deriving
B1 = B0.where(X) and then B2 = B0.where(Y) independently, the render of
B2 contains X (the claim requires it not to), and the render of B0 after
both calls contains both X and Y (the claim requires neither). -/
theorem c1_where_mutates_receiver_counterexample :
    newBuilder regM1 MC = .ok builderM
    ∧ render xExpr = "M.Id = 1"
    ∧ render yExpr = "M.Id = 2"
    ∧ renderBuilder regM1 (whereOp (whereOp builderM xExpr).1 yExpr).2
        = .ok "SELECT M.Id FROM M WHERE M.Id = 1 AND M.Id = 2"
    ∧ strContains "SELECT M.Id FROM M WHERE M.Id = 1 AND M.Id = 2" "M.Id = 1"
        = true
    ∧ renderBuilder regM1 (whereOp (whereOp builderM xExpr).1 yExpr).1
        = .ok "SELECT M.Id FROM M WHERE M.Id = 1 AND M.Id = 2"
    ∧ strContains "SELECT M.Id FROM M WHERE M.Id = 1 AND M.Id = 2" "M.Id = 2"
        = true
    ∧ renderBuilder regM1 (whereOp builderM xExpr).2
        = .ok "SELECT M.Id FROM M WHERE M.Id = 1" :=
  ⟨rfl, rfl, rfl, rfl, by decide, rfl, by decide, rfl⟩

/-- C4 (amended): `subquery` raises `SelectClauseIsntValidSubquery`
exactly when the order-by list is non-empty or the limit or offset slot
is truthy in Python's sense — set to a non-zero value; a limit or offset
of 0 is falsy, so the conversion then succeeds and silently drops it.
On success the result is the parenthesized statement over the computed
columns and filters, and a clause with empty backing state (WHERE with no
filters) is omitted from the statement's children. -/
theorem c4_subquery_truthiness (reg : Registry) (b : Builder) :
    ((!b.orderBys.isEmpty || truthyOpt b.limit || truthyOpt b.offset) = true →
      subqueryOp reg b = .error .selectClauseIsntValidSubquery)
    ∧ ((!b.orderBys.isEmpty || truthyOpt b.limit || truthyOpt b.offset) = false →
      ∀ cols, getColumns reg b = .ok cols →
        subqueryOp reg b
          = .ok (mkSubqueryClause cols (.str b.model.soqlName) b.filters)
        ∧ (b.filters = [] →
            selectChildren cols (.str b.model.soqlName) b.filters [] none none
              = [.str WORDS_SELECT, CommaSeparated cols, .str WORDS_FROM,
                 .str b.model.soqlName])) := by
  constructor
  · intro hcond
    simp [subqueryOp, hcond]
  · intro hcond cols hcols
    constructor
    · simp [subqueryOp, hcond, hcols]
    · intro hf
      simp [selectChildren, hf]

/-- A builder with one order-by clause set. -/
def builderMOrd : Builder :=
  (orderByOp builderM (ColumnPath [ColumnPath [.str "M", .str "Id"]]) none
    none).2

/-- C4 counterexample: `select(M).limit(0).subquery()` has a limit set,
yet raises nothing — it succeeds and silently drops the limit (which the
full render would keep, as `LIMIT 0`), refuting the claimed
"raises if and only if ... a limit set". -/
theorem c4_subquery_truthiness_counterexample :
    (limitOp builderM 0).2.limit = some 0
    ∧ subqueryOp regM1 (limitOp builderM 0).2
        = .ok (mkSubqueryClause [ColumnPath [ColumnPath [.str "M", .str "Id"]]]
            (.str "M") [])
    ∧ (subqueryOp regM1 (limitOp builderM 0).2).map render
        = .ok "(SELECT M.Id FROM M)"
    ∧ renderBuilder regM1 (limitOp builderM 0).2
        = .ok "SELECT M.Id FROM M LIMIT 0" :=
  ⟨rfl, rfl, rfl, rfl⟩

/-- C4 witness: an order-by makes `subquery` raise; with nothing set it
succeeds and omits the WHERE clause. -/
theorem c4_subquery_truthiness_witness :
    subqueryOp regM1 builderMOrd = .error .selectClauseIsntValidSubquery
    ∧ subqueryOp regM1 builderM
        = .ok (mkSubqueryClause [ColumnPath [ColumnPath [.str "M", .str "Id"]]]
            (.str "M") [])
    ∧ selectChildren [ColumnPath [ColumnPath [.str "M", .str "Id"]]]
        (.str "M") [] [] none none
        = [.str WORDS_SELECT,
           CommaSeparated [ColumnPath [ColumnPath [.str "M", .str "Id"]]],
           .str WORDS_FROM, .str "M"] :=
  ⟨(c4_subquery_truthiness regM1 builderMOrd).1 rfl,
   ((c4_subquery_truthiness regM1 builderM).2 rfl
      [ColumnPath [ColumnPath [.str "M", .str "Id"]]] rfl).1,
   ((c4_subquery_truthiness regM1 builderM).2 rfl
      [ColumnPath [ColumnPath [.str "M", .str "Id"]]] rfl).2 rfl⟩

end PlangridSoql
